import Mathlib

/-!
Shallow embedding of the renko-algo core (brick aggregator, ATR estimator,
signal generator, portfolio simulator) from `src/renko_generator.py` and
`src/strategy.py`, together with theorems settling the frozen claims.

Modelling conventions:
* prices and monetary amounts are exact rationals `ℚ` (the Python code uses
  floats; every claim is about exact arithmetic identities at representable
  values);
* bar timestamps (`data.index[i]`) are natural numbers;
* a Python list that the code mutates by `append`/`pop()` at its end is kept
  in REVERSED order (head = most recently appended element), so `append` is
  `cons` and `pop()` is `tail`; the final result is `reverse`d back;
* `raise` is modelled with `Except String`; a pandas value that is NaN
  (undefined rolling mean) is modelled with `Option`.
-/

/-- One input price bar (a row of the OHLC DataFrame). `date` models
`data.index[i]`. -/
structure Bar where
  date : ℕ
  high : ℚ
  low : ℚ
  close : ℚ
deriving DecidableEq

/-- One renko brick, as built by `RenkoGenerator._make_brick`. `open_` is the
source's `open` field (a Lean keyword). -/
structure Brick where
  index : ℕ
  date : ℕ
  open_ : ℚ
  high : ℚ
  low : ℚ
  close : ℚ
  trend : ℤ
deriving DecidableEq

/-- `RenkoGenerator._make_brick`: builds the brick record. -/
def make_brick (index : ℕ) (date : ℕ) (open_ high low close : ℚ) (trend : ℤ) : Brick :=
  ⟨index, date, open_, high, low, close, trend⟩

/-- Python's `int()` conversion on a float: truncation toward zero. -/
def pyInt (q : ℚ) : ℤ :=
  if 0 ≤ q then ⌊q⌋ else ⌈q⌉

/-- The loop state of `RenkoGenerator._generate_renko`: the running reference
price `current_price`, the brick counter `index`, and the emitted bricks
`renko_data` kept most-recent-first (`rev_bricks`). -/
structure GenState where
  current_price : ℚ
  index : ℕ
  rev_bricks : List Brick
deriving DecidableEq

/-- `RenkoGenerator._daily_brick_logic`: one bar of daily-mode aggregation.
Emits an up brick on a rise, a down brick on a fall, nothing when equal;
always advances `current_price` to the bar's close. -/
def daily_brick_logic (bar : Bar) (s : GenState) : GenState :=
  let price := bar.close
  let price_change := price - s.current_price
  if 0 < price_change then
    ⟨price, s.index + 1,
      make_brick s.index bar.date s.current_price price s.current_price price 1 :: s.rev_bricks⟩
  else if price_change < 0 then
    ⟨price, s.index + 1,
      make_brick s.index bar.date s.current_price s.current_price price price (-1) :: s.rev_bricks⟩
  else
    ⟨price, s.index, s.rev_bricks⟩

/-- The merge-on-retrace statement of `RenkoGenerator._atr_brick_logic`:
`if renko_data and (close_price == renko_data[-1]['open'] or close_price ==
renko_data[-1]['close']): renko_data.pop()` — pops the most recent brick
when the new close equals its `open` or `close`. -/
def merge_pop (close_price : ℚ) (rev : List Brick) : List Brick :=
  match rev with
  | [] => []
  | last :: rest =>
    if close_price = last.open_ ∨ close_price = last.close then rest else last :: rest

/-- The inner `for _ in range(num_bricks)` loop of
`RenkoGenerator._atr_brick_logic`: each iteration computes the new brick,
runs the merge-on-retrace pop, then appends the new brick and advances
`current_price` and `index`. -/
def atrStep (B : ℚ) (date : ℕ) (direction : ℤ) : ℕ → GenState → GenState
  | 0, s => s
  | n + 1, s =>
    let open_price := s.current_price
    let close_price := s.current_price + (direction : ℚ) * B
    atrStep B date direction n
      ⟨close_price, s.index + 1,
        make_brick s.index date open_price (max open_price close_price)
          (min open_price close_price) close_price direction ::
            merge_pop close_price s.rev_bricks⟩

/-- `RenkoGenerator._atr_brick_logic`: one bar of ATR/fixed-size aggregation.
`num_bricks = abs(int(price_change / brick_size))`. -/
def atr_brick_logic (B : ℚ) (bar : Bar) (s : GenState) : GenState :=
  let price := bar.close
  let price_change := price - s.current_price
  let num_bricks := (pyInt (price_change / B)).natAbs
  if 0 < num_bricks then
    let direction : ℤ := if 0 < price_change then 1 else -1
    atrStep B bar.date direction num_bricks s
  else s

/-- The `for i in range(1, len(data))` loop of
`RenkoGenerator._generate_renko`, applied to the bars after the first. -/
def genLoop (logic : Bar → GenState → GenState) : List Bar → GenState → GenState
  | [], s => s
  | bar :: rest, s => genLoop logic rest (logic bar s)

/-- Daily-mode brick sequence for a non-empty bar list `b0 :: rest`
(`current_price` starts at the first bar's close; no trailing brick is
appended in daily mode). -/
def dailyBricks (b0 : Bar) (rest : List Bar) : List Brick :=
  (genLoop daily_brick_logic rest ⟨b0.close, 0, []⟩).rev_bricks.reverse

/-- The state after the main ATR-mode loop, before the incomplete-brick step. -/
def atrCore (b0 : Bar) (rest : List Bar) (B : ℚ) : GenState :=
  genLoop (atr_brick_logic B) rest ⟨b0.close, 0, []⟩

/-- `RenkoGenerator._append_incomplete_brick` guarded by the `renko_data`
non-emptiness test of `_generate_renko`: when the last brick's date differs
from the last bar's date, append one brick from the last brick's close to the
last bar's close with trend 0. -/
def append_incomplete_brick (lastBar : Bar) (s : GenState) : List Brick :=
  match s.rev_bricks with
  | [] => []
  | last :: _ =>
    if last.date ≠ lastBar.date then
      make_brick s.index lastBar.date last.close (max last.close lastBar.close)
        (min last.close lastBar.close) lastBar.close 0 :: s.rev_bricks
    else s.rev_bricks

/-- ATR/fixed-size-mode brick sequence for a non-empty bar list `b0 :: rest`
with brick size `B`. -/
def atrBricks (b0 : Bar) (rest : List Bar) (B : ℚ) : List Brick :=
  (append_incomplete_brick (rest.getLastD b0) (atrCore b0 rest B)).reverse

/-- `RenkoGenerator._generate_renko` in daily mode. On an empty DataFrame the
first statement `data['Close'].iloc[0]` raises `IndexError`. -/
def generate_renko_daily (bars : List Bar) : Except String (List Brick) :=
  match bars with
  | [] => .error "IndexError"
  | b0 :: rest => .ok (dailyBricks b0 rest)

/-- `RenkoGenerator._generate_renko` in ATR mode with an explicit brick size.
On an empty DataFrame `data['Close'].iloc[0]` raises `IndexError`. -/
def generate_renko_atr (bars : List Bar) (B : ℚ) : Except String (List Brick) :=
  match bars with
  | [] => .error "IndexError"
  | b0 :: rest => .ok (atrBricks b0 rest B)

/-- The true-range series of `RenkoGenerator._calculate_atr`:
`tr = concat([high-low, abs(high-close.shift()), abs(low-close.shift())]).max(axis=1)`.
For the first bar the shifted close is NaN and the pandas row-max skips NaN,
so the first true range is `high - low`; for every later bar it is
`max(high-low, |high-prev_close|, |low-prev_close|)`. -/
def trueRangeList (bars : List Bar) : List ℚ :=
  match bars with
  | [] => []
  | b0 :: rest =>
    (b0.high - b0.low) ::
      (rest.zip (b0 :: rest)).map
        (fun p => max (p.1.high - p.1.low) (max |p.1.high - p.2.close| |p.1.low - p.2.close|))

/-- `RenkoGenerator._calculate_atr`: `tr.rolling(atr_period).mean().iloc[-1]`,
multiplied by `atr_multiplier`.  The rolling mean at the last row is defined
(non-NaN) exactly when at least `atr_period` true-range rows exist, and then
equals the arithmetic mean of the last `atr_period` of them; an undefined
(NaN) value is modelled as `none`.  The caller guarantees a non-empty frame
(on an empty one `iloc[-1]` raises). -/
def calculate_atr (bars : List Bar) (atr_period : ℕ) (atr_multiplier : ℚ) : Option ℚ :=
  let tr := trueRangeList bars
  if 1 ≤ atr_period ∧ atr_period ≤ tr.length then
    some (((tr.drop (tr.length - atr_period)).sum / (atr_period : ℚ)) * atr_multiplier)
  else none

/-- `RenkoGenerator.generate_renko` in ATR mode with `brick_size = None`
(automatic ATR sizing).  On an empty frame `iloc[-1]` inside
`_calculate_atr` raises `IndexError`.  When the rolling mean is NaN the
`brick_size == 0` test is False (NaN compares unequal to 0), so generation
proceeds with a NaN brick size and the first loop iteration of
`_generate_renko` raises `ValueError` at `int(price_change / brick_size)`
(`int()` of NaN); with a single bar that loop body never runs and the empty
brick list is returned.  When the ATR is exactly 0 the generator logs a
warning and returns an empty result. -/
def generate_renko_auto (bars : List Bar) (atr_period : ℕ) (atr_multiplier : ℚ) :
    Except String (List Brick) :=
  match bars with
  | [] => .error "IndexError"
  | b0 :: rest =>
    match calculate_atr (b0 :: rest) atr_period atr_multiplier with
    | some B => if B = 0 then .ok [] else .ok (atrBricks b0 rest B)
    | none => if rest = [] then .ok [] else .error "ValueError"

/-- The generator-side configuration values checked by
`RenkoGenerator._validate_params`. -/
structure GenConfig where
  mode : String
  atr_period : ℤ
  atr_multiplier : ℚ
  brick_size : Option ℚ
deriving DecidableEq

/-- `RenkoGenerator._validate_params`, run from `__init__` before any data is
processed: rejects an invalid mode string, a non-positive `atr_period`, a
non-positive `atr_multiplier`, and a non-positive explicit `brick_size`. -/
def validate_params (c : GenConfig) : Except String Unit :=
  if c.mode ≠ "daily" ∧ c.mode ≠ "atr" then .error "ValueError: mode"
  else if c.atr_period ≤ 0 then .error "ValueError: atr_period"
  else if c.atr_multiplier ≤ 0 then .error "ValueError: atr_multiplier"
  else
    match c.brick_size with
    | some b => if b ≤ 0 then .error "ValueError: brick_size" else .ok ()
    | none => .ok ()

/-- The strategy-side configuration kept by `RenkoStrategy.__init__`. -/
structure StrategyConfig where
  buy_trend_length : ℤ
  sell_trend_length : ℤ
deriving DecidableEq

/-- `RenkoStrategy.__init__`: stores the two trend lengths and configures
logging.  It performs no validation whatsoever, so it never raises for any
argument values. -/
def strategy_init (buy_trend_length sell_trend_length : ℤ) : Except String StrategyConfig :=
  .ok ⟨buy_trend_length, sell_trend_length⟩

/-- `renko_data['trend'].rolling(W).sum()` evaluated at row `i` (only used for
`i + 1 ≥ W`, where the rolling sum is defined): the sum of the `trend`
entries at rows `i+1-W .. i`. -/
def windowSum (trends : List ℤ) (i W : ℕ) : ℤ :=
  ((List.range W).map (fun k => trends.getD (i + 1 - W + k) 0)).sum

/-- The `for i in range(max(Lb, Ls), len(renko_data))` loop of
`RenkoStrategy.calculate_signals`: at row `i`, with the rolling trend sum
`T`, emit BUY (1) when `T ≥ buy_trend_length` and the loop position is flat,
SELL (-1) when `T ≤ -sell_trend_length` and the loop position is long, and
HOLD (0) otherwise.  `fuel` counts the remaining rows. -/
def signalLoop (trends : List ℤ) (Lb Ls W : ℕ) : ℕ → ℕ → ℤ → List ℤ
  | 0, _, _ => []
  | fuel + 1, i, pos =>
    let T := windowSum trends i W
    if (Lb : ℤ) ≤ T ∧ pos = 0 then
      1 :: signalLoop trends Lb Ls W fuel (i + 1) 1
    else if T ≤ -(Ls : ℤ) ∧ pos = 1 then
      (-1) :: signalLoop trends Lb Ls W fuel (i + 1) 0
    else
      0 :: signalLoop trends Lb Ls W fuel (i + 1) pos

/-- `RenkoStrategy.calculate_signals` on the bricks' trend column: the signal
column starts as all zeros, and the loop overwrites rows from
`W = max(buy_trend_length, sell_trend_length)` onward. -/
def calculate_signals (trends : List ℤ) (Lb Ls : ℕ) : List ℤ :=
  let W := max Lb Ls
  List.replicate (min W trends.length) 0 ++
    signalLoop trends Lb Ls W (trends.length - W) W 0

/-- One row of the portfolio DataFrame built by `RenkoStrategy.backtest`. -/
structure PortState where
  position : ℤ
  shares : ℚ
  cash : ℚ
  holdings : ℚ
  total : ℚ
deriving DecidableEq

/-- The body of the `for i in range(1, len(renko_data))` loop of
`RenkoStrategy.backtest` for one brick: carry the previous row's
`position`/`shares`/`cash` forward; on a BUY signal from a flat position,
buy `floor(cash / (price * 100)) * 100` shares, paying a 0.009% commission
(the bought row is then immediately marked to market, which recomputes the
same holdings value); on a SELL signal from a long position, liquidate with
a 0.06% commission; otherwise mark to market when long (the `holdings`
column is not carried forward and stays at its initial 0 when flat); finally
record `total = holdings + cash`. -/
def backtestStep (prev : PortState) (price : ℚ) (sig : ℤ) : PortState :=
  if sig = 1 ∧ prev.position = 0 then
    let shares : ℤ := ⌊prev.cash / (price * 100)⌋ * 100
    let trade_amount : ℚ := (shares : ℚ) * price
    let commission := trade_amount * (9 / 100000)
    let total_cost := trade_amount + commission
    let cash := prev.cash - total_cost
    let holdings := (shares : ℚ) * price
    ⟨1, (shares : ℚ), cash, holdings, holdings + cash⟩
  else if sig = -1 ∧ prev.position = 1 then
    let sell_amount := prev.shares * price
    let commission := sell_amount * (6 / 10000)
    let cash := prev.cash + (sell_amount - commission)
    ⟨0, 0, cash, 0, 0 + cash⟩
  else
    let holdings := if prev.position = 1 then prev.shares * price else 0
    ⟨prev.position, prev.shares, prev.cash, holdings, holdings + prev.cash⟩

/-- The loop of `RenkoStrategy.backtest` over the bricks after the first,
zipped with their aligned signals. -/
def backtestLoop (prev : PortState) : List (ℚ × ℤ) → List PortState
  | [] => []
  | (price, sig) :: rest =>
    let st := backtestStep prev price sig
    st :: backtestLoop st rest

/-- `RenkoStrategy.backtest` on the bricks' close column and the aligned
signal column: row 0 holds the initial capital in cash (flat, no shares),
and every later row is produced by `backtestStep`.  The source indexes both
frames by the same (non-empty) brick index, so closes and signals are
aligned positionally. -/
def backtest (closes : List ℚ) (signals : List ℤ) (initial_capital : ℚ) : List PortState :=
  match closes, signals with
  | _ :: cs, _ :: ss =>
    let init : PortState := ⟨0, 0, initial_capital, 0, initial_capital⟩
    init :: backtestLoop init (cs.zip ss)
  | _, _ => []

/-- Index-counter invariant of the generator loop: every emitted brick's
`index` is below the running counter, and the (reversed) brick list has
strictly decreasing `index` fields. -/
def IdxInv (s : GenState) : Prop :=
  (∀ b ∈ s.rev_bricks, b.index < s.index) ∧
    List.Chain' (fun a b => b.index < a.index) s.rev_bricks

section Lemmas

theorem genLoop_append (logic : Bar → GenState → GenState) (l1 l2 : List Bar) (s : GenState) :
    genLoop logic (l1 ++ l2) s = genLoop logic l2 (genLoop logic l1 s) := by
  induction l1 generalizing s with
  | nil => rfl
  | cons b l1 ih => simp [genLoop, ih]

theorem trueRangeList_length (bars : List Bar) : (trueRangeList bars).length = bars.length := by
  cases bars with
  | nil => rfl
  | cons b0 rest => simp [trueRangeList]

end Lemmas

/-- C7, counterexample: on the empty bar series, brick generation in both
modes raises `IndexError` (from `data['Close'].iloc[0]`) instead of
returning an empty brick sequence. -/
theorem c7_counterexample :
    generate_renko_daily [] = .error "IndexError" ∧
      generate_renko_atr [] 1 = .error "IndexError" := ⟨rfl, rfl⟩

/-- C7 (amended): for every input with exactly one bar, brick generation in
every mode (daily, fixed-size ATR, automatic ATR) returns an empty brick
sequence and does not raise; the empty bar series instead raises
`IndexError`. -/
theorem c7_single_bar_empty (b : Bar) (B : ℚ) (N : ℕ) (M : ℚ) :
    generate_renko_daily [b] = .ok [] ∧ generate_renko_atr [b] B = .ok [] ∧
      generate_renko_auto [b] N M = .ok [] := by
  refine ⟨rfl, rfl, ?_⟩
  unfold generate_renko_auto
  cases h : calculate_atr [b] N M with
  | none => simp [h]
  | some B' =>
    by_cases hB : B' = 0
    · simp [h, hB]
    · have hnil : atrBricks b [] B' = [] := rfl
      simp [h, hB, hnil]

/-- C8, counterexample: `RenkoStrategy.__init__` accepts non-positive trend
lengths without raising any configuration error. -/
theorem c8_counterexample : strategy_init 0 (-1) = .ok ⟨0, -1⟩ := rfl

/-- C8 (amended): the generator's configuration is validated before any
processing — an invalid mode string, a non-positive `atr_period`, a
non-positive `atr_multiplier` and a non-positive explicit `brick_size` each
raise a `ValueError` — but the strategy's `buy_trend_length` and
`sell_trend_length` are never validated: `RenkoStrategy.__init__` succeeds
for every value, including non-positive ones. -/
theorem c8_generator_validates_strategy_does_not :
    (∀ (mode : String) (p : ℤ) (m : ℚ) (bs : Option ℚ), mode ≠ "daily" → mode ≠ "atr" →
      validate_params ⟨mode, p, m, bs⟩ = .error "ValueError: mode") ∧
    (∀ (mode : String) (p : ℤ) (m : ℚ) (bs : Option ℚ),
      (mode = "daily" ∨ mode = "atr") → p ≤ 0 →
      validate_params ⟨mode, p, m, bs⟩ = .error "ValueError: atr_period") ∧
    (∀ (mode : String) (p : ℤ) (m : ℚ) (bs : Option ℚ),
      (mode = "daily" ∨ mode = "atr") → 0 < p → m ≤ 0 →
      validate_params ⟨mode, p, m, bs⟩ = .error "ValueError: atr_multiplier") ∧
    (∀ (mode : String) (p : ℤ) (m : ℚ) (b : ℚ),
      (mode = "daily" ∨ mode = "atr") → 0 < p → 0 < m → b ≤ 0 →
      validate_params ⟨mode, p, m, some b⟩ = .error "ValueError: brick_size") ∧
    (∀ Lb Ls : ℤ, strategy_init Lb Ls = .ok ⟨Lb, Ls⟩) := by
  refine ⟨?_, ?_, ?_, ?_, fun _ _ => rfl⟩
  · intro mode p m bs h1 h2
    simp [validate_params, h1, h2]
  · rintro mode p m bs (rfl | rfl) hp <;> simp [validate_params, hp]
  · rintro mode p m bs (rfl | rfl) hp hm <;>
      simp [validate_params, not_le.mpr hp, hm]
  · rintro mode p m b (rfl | rfl) hp hm hb <;>
      simp [validate_params, not_le.mpr hp, not_le.mpr hm, hb]

/-- C8, witness. -/
theorem c8_witness :
    validate_params ⟨"weekly", 10, 1, none⟩ = .error "ValueError: mode" ∧
      validate_params ⟨"atr", 0, 1, none⟩ = .error "ValueError: atr_period" ∧
      validate_params ⟨"atr", 10, -1, none⟩ = .error "ValueError: atr_multiplier" ∧
      validate_params ⟨"daily", 10, 1, some (-2)⟩ = .error "ValueError: brick_size" ∧
      strategy_init (-3) 0 = .ok ⟨-3, 0⟩ :=
  ⟨c8_generator_validates_strategy_does_not.1 "weekly" 10 1 none (by decide) (by decide),
    c8_generator_validates_strategy_does_not.2.1 "atr" 0 1 none (Or.inr rfl) (by decide),
    c8_generator_validates_strategy_does_not.2.2.1 "atr" 10 (-1) none (Or.inr rfl) (by decide)
      (by norm_num),
    c8_generator_validates_strategy_does_not.2.2.2.1 "daily" 10 1 (-2) (Or.inl rfl) (by decide)
      (by norm_num) (by norm_num),
    c8_generator_validates_strategy_does_not.2.2.2.2 (-3) 0⟩

theorem backtestStep_total (prev : PortState) (price : ℚ) (sig : ℤ) :
    (backtestStep prev price sig).total =
      (backtestStep prev price sig).cash + (backtestStep prev price sig).holdings := by
  unfold backtestStep
  split_ifs <;> dsimp <;> ring

theorem backtestLoop_total (pairs : List (ℚ × ℤ)) :
    ∀ prev : PortState, ∀ st ∈ backtestLoop prev pairs, st.total = st.cash + st.holdings := by
  induction pairs with
  | nil => intro prev st h; simp [backtestLoop] at h
  | cons p rest ih =>
    intro prev st h
    obtain ⟨price, sig⟩ := p
    rcases List.mem_cons.mp h with rfl | h'
    · exact backtestStep_total prev price sig
    · exact ih _ st h'

theorem backtestStep_shares_lot (prev : PortState) (price : ℚ) (sig : ℤ)
    (h : ∃ k : ℤ, prev.shares = (k : ℚ) * 100) :
    ∃ k : ℤ, (backtestStep prev price sig).shares = (k : ℚ) * 100 := by
  unfold backtestStep
  split_ifs
  · exact ⟨⌊prev.cash / (price * 100)⌋, by push_cast; ring⟩
  · exact ⟨0, by norm_num⟩
  · exact h
  · exact h

theorem backtestLoop_shares_lot (pairs : List (ℚ × ℤ)) :
    ∀ prev : PortState, (∃ k : ℤ, prev.shares = (k : ℚ) * 100) →
      ∀ st ∈ backtestLoop prev pairs, ∃ k : ℤ, st.shares = (k : ℚ) * 100 := by
  induction pairs with
  | nil => intro prev _ st h; simp [backtestLoop] at h
  | cons p rest ih =>
    intro prev hprev st h
    obtain ⟨price, sig⟩ := p
    rcases List.mem_cons.mp h with rfl | h'
    · exact backtestStep_shares_lot prev price sig hprev
    · exact ih _ (backtestStep_shares_lot prev price sig hprev) st h'

/-- C3, counterexample: with bricks closing at [100, 100], signals [0, 1] and
initial capital 1,000,000 (> 0), the BUY at step 1 spends the whole capital
on shares (the lot-rounded amount divides evenly) and then subtracts the
0.009% commission on top, leaving cash = −90 < 0. -/
theorem c3_counterexample :
    (backtest [100, 100] [0, 1] 1000000).getD 1 ⟨0, 0, 0, 0, 0⟩ =
      ⟨1, 10000, -90, 1000000, 999910⟩ ∧ ((-90 : ℚ) < 0) := by
  constructor
  · norm_num [backtest, backtestLoop, backtestStep]
  · norm_num

/-- C3 (amended): at every step of the portfolio, `total = cash + holdings`
holds exactly, and step 0 has `cash = total = C0` and zero holdings/shares;
but `cash ≥ 0` does NOT hold in general (the buy commission can push cash
below zero when the lot-rounded trade amount equals the available cash). -/
theorem c3_conservation (c : ℚ) (cs : List ℚ) (s : ℤ) (ss : List ℤ) (C0 : ℚ)
    (_hC0 : 0 < C0) (_hpos : ∀ x ∈ c :: cs, (0 : ℚ) < x) :
    (backtest (c :: cs) (s :: ss) C0).head? = some ⟨0, 0, C0, 0, C0⟩ ∧
      ∀ st ∈ backtest (c :: cs) (s :: ss) C0, st.total = st.cash + st.holdings := by
  refine ⟨rfl, ?_⟩
  intro st h
  rcases List.mem_cons.mp h with rfl | h'
  · dsimp; ring
  · exact backtestLoop_total _ _ st h'

/-- C3, witness. -/
theorem c3_witness :
    (backtest [100, 100] [0, 1] 1000000).head? = some ⟨0, 0, 1000000, 0, 1000000⟩ ∧
      ∀ st ∈ backtest [100, 100] [0, 1] 1000000, st.total = st.cash + st.holdings :=
  c3_conservation 100 [100] 0 [1] 1000000 (by norm_num) (by norm_num)

/-- C4, counterexample: a BUY signal in FLAT state with too little cash for
one lot (floor(50 / (100·100)) · 100 = 0 shares) still flips `position` to
LONG (the source sets `position = 1` unconditionally inside the buy branch),
so the signal is not a no-op and `shares > 0 ↔ position == LONG` fails. -/
theorem c4_counterexample :
    (backtest [100, 100] [0, 1] 50).getD 1 ⟨0, 0, 0, 0, 0⟩ = ⟨1, 0, 50, 0, 50⟩ := by
  norm_num [backtest, backtestLoop, backtestStep]

/-- C4 (amended): on a BUY signal in FLAT state whose lot-rounded share count
is 0, cash, shares and holdings are unchanged but `position` is nonetheless
set to LONG (so `shares > 0 ↔ position == LONG` fails at such steps); and at
every step of every run, `shares` is an integer multiple of 100. -/
theorem c4_zero_share_buy :
    (∀ (prev : PortState) (price : ℚ), prev.position = 0 →
      ⌊prev.cash / (price * 100)⌋ = 0 →
      backtestStep prev price 1 = ⟨1, 0, prev.cash, 0, prev.cash⟩) ∧
    (∀ (c : ℚ) (cs : List ℚ) (s : ℤ) (ss : List ℤ) (C0 : ℚ),
      ∀ st ∈ backtest (c :: cs) (s :: ss) C0, ∃ k : ℤ, st.shares = (k : ℚ) * 100) := by
  constructor
  · intro prev price hpos hfl
    unfold backtestStep
    rw [if_pos ⟨rfl, hpos⟩]
    simp only [hfl]
    norm_num
  · intro c cs s ss C0 st h
    rcases List.mem_cons.mp h with rfl | h'
    · exact ⟨0, by norm_num⟩
    · exact backtestLoop_shares_lot _ _ ⟨0, by norm_num⟩ st h'

/-- C4, witness. -/
theorem c4_witness :
    backtestStep ⟨0, 0, 50, 0, 50⟩ 100 1 = ⟨1, 0, 50, 0, 50⟩ ∧
      ∃ k : ℤ, (⟨0, 0, 50, 0, 50⟩ : PortState).shares = (k : ℚ) * 100 :=
  ⟨c4_zero_share_buy.1 ⟨0, 0, 50, 0, 50⟩ 100 rfl (by norm_num),
    c4_zero_share_buy.2 100 [100] 0 [1] 50 ⟨0, 0, 50, 0, 50⟩ (List.mem_cons_self _ _)⟩

/-- C5, counterexample: with `buy_trend_length = sell_trend_length = 2` and
three consecutive up bricks from FLAT, the signal at the second brick
(index 1) is 0, not BUY: the source's loop starts at
`i = max(buy_trend_length, sell_trend_length)`, so the BUY only fires at
index 2. -/
theorem c5_counterexample :
    (calculate_signals [1, 1, 1] 2 2).getD 1 0 = 0 ∧
      calculate_signals [1, 1, 1] 2 2 = [0, 0, 1] := by
  norm_num [calculate_signals, signalLoop, windowSum, List.range_succ]
  decide

/-- C5 (amended): with `buy_trend_length = 2` and `sell_trend_length ≤ 2`
(`W = 2`), on a brick sequence whose second and third trends are both up and
initial state FLAT, the first `W = 2` signals (indices 0 and 1) are forced
HOLD — the loop only starts consulting the sliding trend sum at index `W`,
not `W − 1` — and the BUY signal (+1) is emitted at the third brick
(index 2). -/
theorem c5_buy_fires_at_index_two (ts : List ℤ) (Ls : ℕ) (hLs : Ls ≤ 2)
    (hlen : 3 ≤ ts.length) (h1 : ts.getD 1 0 = 1) (h2 : ts.getD 2 0 = 1) :
    (calculate_signals ts 2 Ls).take 2 = [0, 0] ∧
      (calculate_signals ts 2 Ls).getD 2 0 = 1 := by
  have hW : max 2 Ls = 2 := Nat.max_eq_left hLs
  obtain ⟨m, hm⟩ : ∃ m, ts.length = 3 + m := ⟨ts.length - 3, by omega⟩
  have hmin : min 2 ts.length = 2 := by omega
  have hsub : ts.length - 2 = m + 1 := by omega
  have h1' : ts[1]?.getD 0 = 1 := by simpa using h1
  have h2' : ts[2]?.getD 0 = 1 := by simpa using h2
  have hT : windowSum ts 2 2 = 2 := by
    simp [windowSum, List.range_succ, h1', h2']
  have hcs : calculate_signals ts 2 Ls =
      List.replicate 2 0 ++ signalLoop ts 2 Ls 2 (m + 1) 2 0 := by
    simp only [calculate_signals, hW, hmin, hsub]
  have hloop : signalLoop ts 2 Ls 2 (m + 1) 2 0 = 1 :: signalLoop ts 2 Ls 2 m 3 1 := by
    simp only [signalLoop, hT]
    norm_num
  rw [hcs, hloop]
  constructor
  · simp [List.replicate]
  · simp [List.replicate, List.getD_cons_succ, List.getD_cons_zero]

/-- C5, witness. -/
theorem c5_witness :
    (calculate_signals [1, 1, 1, 1] 2 1).take 2 = [0, 0] ∧
      (calculate_signals [1, 1, 1, 1] 2 1).getD 2 0 = 1 :=
  c5_buy_fires_at_index_two [1, 1, 1, 1] 1 (by decide) (by decide) (by decide) (by decide)

/-- C6, counterexample: with `atr_period = 2` and only 2 bars — fewer than
`N + 1 = 3` — automatic ATR sizing neither raises nor returns an explicit
error condition: pandas computes the first true range as `high − low` (the
row-max skips the NaN shifted close), the rolling mean over the 2 rows is
defined, and bricks are silently produced. -/
theorem c6_counterexample :
    generate_renko_auto [⟨0, 101, 99, 100⟩, ⟨1, 106, 97, 106⟩] 2 1 =
      .ok [⟨0, 1, 100, 211 / 2, 100, 211 / 2, 1⟩] ∧
      ([⟨0, 101, 99, 100⟩, ⟨1, 106, 97, 106⟩] : List Bar).length < 2 + 1 := by
  constructor
  · norm_num [generate_renko_auto, calculate_atr, trueRangeList, atrBricks, atrCore, genLoop,
      atr_brick_logic, pyInt, atrStep, merge_pop, append_incomplete_brick, make_brick]
  · norm_num

/-- C6 (amended): when automatic ATR sizing is requested with at least 2 but
fewer than `atr_period` bars, the undefined (NaN) rolling mean is not caught
— the `brick_size == 0` test is false for NaN — and brick generation dies
with an uncaught `ValueError` from `int(NaN)`, not a recoverable
InsufficientDataError-style result; with exactly `atr_period` bars (still
fewer than `atr_period + 1`) bricks are produced normally.  An ATR that
evaluates to exactly 0 does yield an empty brick result, with no division by
zero. -/
theorem c6_undefined_atr_behaviour :
    (∀ (bars : List Bar) (N : ℕ) (M : ℚ), 2 ≤ bars.length → bars.length < N →
      generate_renko_auto bars N M = .error "ValueError") ∧
    (∀ (b0 : Bar) (rest : List Bar) (N : ℕ) (M : ℚ),
      calculate_atr (b0 :: rest) N M = some 0 →
      generate_renko_auto (b0 :: rest) N M = .ok []) := by
  constructor
  · intro bars N M h2 hN
    match bars, h2 with
    | b0 :: b1 :: rest, _ =>
      have hlen := trueRangeList_length (b0 :: b1 :: rest)
      have hN' : (b0 :: b1 :: rest).length < N := hN
      have hcond : ¬(1 ≤ N ∧ N ≤ (trueRangeList (b0 :: b1 :: rest)).length) := by omega
      have hatr : calculate_atr (b0 :: b1 :: rest) N M = none := by
        simp only [calculate_atr]
        rw [if_neg hcond]
      simp only [generate_renko_auto, hatr]
      simp
  · intro b0 rest N M h
    simp only [generate_renko_auto, h]
    simp

/-- C6, witness. -/
theorem c6_witness :
    generate_renko_auto [⟨0, 1, 1, 1⟩, ⟨1, 1, 1, 1⟩] 5 1 = .error "ValueError" ∧
      generate_renko_auto [⟨0, 1, 1, 1⟩, ⟨1, 1, 1, 1⟩] 2 1 = .ok [] :=
  ⟨c6_undefined_atr_behaviour.1 [⟨0, 1, 1, 1⟩, ⟨1, 1, 1, 1⟩] 5 1 (by decide) (by decide),
    c6_undefined_atr_behaviour.2 ⟨0, 1, 1, 1⟩ [⟨1, 1, 1, 1⟩] 2 1
      (by norm_num [calculate_atr, trueRangeList])⟩

/-- C1, counterexample: brick size 1, closes [100, 101, 100].  At the second
move the new brick close (100) equals the open of the previously emitted
brick (100→101), so the merge-on-retrace test fires; the previous brick is
popped but the new brick IS appended (the append sits outside the `if`), so
the run ends with one brick (101→100, index 1), not zero.  The second
conjunct isolates the retracing loop iteration itself: the brick list keeps
length 1 instead of shrinking to 0. -/
theorem c1_counterexample :
    generate_renko_atr [⟨0, 100, 100, 100⟩, ⟨1, 101, 101, 101⟩, ⟨2, 100, 100, 100⟩] 1 =
      .ok [⟨1, 2, 101, 101, 100, 100, -1⟩] ∧
      atrStep 1 2 (-1) 1 ⟨101, 1, [⟨0, 1, 100, 101, 100, 101, 1⟩]⟩ =
        ⟨100, 2, [⟨1, 2, 101, 101, 100, 100, -1⟩]⟩ := by
  constructor
  · norm_num [generate_renko_atr, atrBricks, atrCore, genLoop, atr_brick_logic, pyInt, atrStep,
      merge_pop, append_incomplete_brick, make_brick]
  · norm_num [atrStep, merge_pop, make_brick]

/-- C1 (amended): whenever a newly computed brick close equals the open or
the close of the most recently emitted brick, the aggregator removes that
previous brick AND appends the new one — the last brick is replaced and the
brick sequence keeps the same length at that step (it does not shrink by
one). -/
theorem c1_merge_replaces_previous (B : ℚ) (date : ℕ) (direction : ℤ) (n : ℕ)
    (cp : ℚ) (idx : ℕ) (last : Brick) (rest : List Brick)
    (h : cp + (direction : ℚ) * B = last.open_ ∨ cp + (direction : ℚ) * B = last.close) :
    atrStep B date direction (n + 1) ⟨cp, idx, last :: rest⟩ =
      atrStep B date direction n
        ⟨cp + (direction : ℚ) * B, idx + 1,
          make_brick idx date cp (max cp (cp + (direction : ℚ) * B))
            (min cp (cp + (direction : ℚ) * B)) (cp + (direction : ℚ) * B) direction :: rest⟩ ∧
      (make_brick idx date cp (max cp (cp + (direction : ℚ) * B))
          (min cp (cp + (direction : ℚ) * B)) (cp + (direction : ℚ) * B) direction ::
            rest).length = (last :: rest).length := by
  refine ⟨?_, by simp⟩
  conv_lhs => rw [atrStep]
  simp only [merge_pop]
  rw [if_pos h]

/-- C1, witness. -/
theorem c1_witness :
    atrStep 1 2 (-1) (0 + 1) ⟨101, 1, [⟨0, 1, 100, 101, 100, 101, 1⟩]⟩ =
      atrStep 1 2 (-1) 0
        ⟨101 + ((-1 : ℤ) : ℚ) * 1, 1 + 1,
          make_brick 1 2 101 (max 101 (101 + ((-1 : ℤ) : ℚ) * 1))
            (min 101 (101 + ((-1 : ℤ) : ℚ) * 1)) (101 + ((-1 : ℤ) : ℚ) * 1) (-1) :: []⟩ ∧
      (make_brick 1 2 101 (max 101 (101 + ((-1 : ℤ) : ℚ) * 1))
          (min 101 (101 + ((-1 : ℤ) : ℚ) * 1)) (101 + ((-1 : ℤ) : ℚ) * 1) (-1) ::
            ([] : List Brick)).length =
        ([⟨0, 1, 100, 101, 100, 101, 1⟩] : List Brick).length :=
  c1_merge_replaces_previous 1 2 (-1) 0 101 1 ⟨0, 1, 100, 101, 100, 101, 1⟩ []
    (Or.inl (by norm_num))

/-- C2: after the main ATR-mode loop, the trailing partial brick (trend 0,
spanning from the last emitted brick's close to the last bar's close, dated
at the last bar) is appended if and only if the last emitted brick's
timestamp differs from the last bar's timestamp; and on Scenario B
(brick_size 2, closes [100, 103, 103]) the output is exactly one up brick
100→102 followed by one partial brick 102→103 with trend 0. -/
theorem c2_trailing_partial_brick :
    (∀ (b0 : Bar) (rest : List Bar) (B : ℚ) (last : Brick) (restRev : List Brick),
      (atrCore b0 rest B).rev_bricks = last :: restRev →
        (last.date ≠ (rest.getLastD b0).date →
          atrBricks b0 rest B = (last :: restRev).reverse ++
            [make_brick (atrCore b0 rest B).index (rest.getLastD b0).date last.close
              (max last.close (rest.getLastD b0).close)
              (min last.close (rest.getLastD b0).close) (rest.getLastD b0).close 0]) ∧
        (last.date = (rest.getLastD b0).date →
          atrBricks b0 rest B = (last :: restRev).reverse)) ∧
    generate_renko_atr [⟨0, 100, 100, 100⟩, ⟨1, 103, 103, 103⟩, ⟨2, 103, 103, 103⟩] 2 =
      .ok [⟨0, 1, 100, 102, 100, 102, 1⟩, ⟨1, 2, 102, 103, 102, 103, 0⟩] := by
  constructor
  · intro b0 rest B last restRev h
    constructor
    · intro hne
      unfold atrBricks append_incomplete_brick
      rw [h]
      simp only
      rw [if_pos hne]
      simp
    · intro heq
      unfold atrBricks append_incomplete_brick
      rw [h]
      simp only
      rw [if_neg (by simp [heq])]
  · norm_num [generate_renko_atr, atrBricks, atrCore, genLoop, atr_brick_logic, pyInt, atrStep,
      merge_pop, append_incomplete_brick, make_brick]

/-- C2, witness. -/
theorem c2_witness :
    atrBricks ⟨0, 100, 100, 100⟩ [⟨1, 103, 103, 103⟩, ⟨2, 103, 103, 103⟩] 2 =
      ([⟨0, 1, 100, 102, 100, 102, 1⟩] : List Brick).reverse ++
        [make_brick
          (atrCore ⟨0, 100, 100, 100⟩ [⟨1, 103, 103, 103⟩, ⟨2, 103, 103, 103⟩] 2).index
          ((([⟨1, 103, 103, 103⟩, ⟨2, 103, 103, 103⟩] : List Bar).getLastD
            ⟨0, 100, 100, 100⟩).date)
          (⟨0, 1, 100, 102, 100, 102, 1⟩ : Brick).close
          (max (⟨0, 1, 100, 102, 100, 102, 1⟩ : Brick).close
            ((([⟨1, 103, 103, 103⟩, ⟨2, 103, 103, 103⟩] : List Bar).getLastD
              ⟨0, 100, 100, 100⟩).close))
          (min (⟨0, 1, 100, 102, 100, 102, 1⟩ : Brick).close
            ((([⟨1, 103, 103, 103⟩, ⟨2, 103, 103, 103⟩] : List Bar).getLastD
              ⟨0, 100, 100, 100⟩).close))
          ((([⟨1, 103, 103, 103⟩, ⟨2, 103, 103, 103⟩] : List Bar).getLastD
            ⟨0, 100, 100, 100⟩).close) 0] :=
  ((c2_trailing_partial_brick.1 ⟨0, 100, 100, 100⟩ [⟨1, 103, 103, 103⟩, ⟨2, 103, 103, 103⟩] 2
      ⟨0, 1, 100, 102, 100, 102, 1⟩ []
      (by norm_num [atrCore, genLoop, atr_brick_logic, pyInt, atrStep, merge_pop, make_brick])).1
    (by decide))

theorem merge_pop_sublist (c : ℚ) (rev : List Brick) : List.Sublist (merge_pop c rev) rev := by
  cases rev with
  | nil => simp [merge_pop]
  | cons last rest =>
    simp only [merge_pop]
    split_ifs
    · exact List.sublist_cons_self last rest
    · exact List.Sublist.refl _

theorem idxInv_cons_merge (s : GenState) (h : IdxInv s) (cp' : ℚ) (date : ℕ) (direction : ℤ) :
    IdxInv ⟨cp', s.index + 1,
      make_brick s.index date s.current_price (max s.current_price cp')
        (min s.current_price cp') cp' direction :: merge_pop cp' s.rev_bricks⟩ := by
  obtain ⟨hmem, hchain⟩ := h
  have hsub := merge_pop_sublist cp' s.rev_bricks
  haveI : IsTrans Brick (fun a b => b.index < a.index) :=
    ⟨fun _ _ _ h1 h2 => Nat.lt_trans h2 h1⟩
  unfold IdxInv
  constructor
  · intro b hb
    rcases List.mem_cons.mp hb with rfl | hb'
    · exact Nat.lt_succ_self s.index
    · exact Nat.lt_succ_of_lt (hmem b (hsub.mem hb'))
  · refine List.chain'_cons'.mpr ⟨?_, hchain.sublist hsub⟩
    intro y hy
    exact hmem y (hsub.mem (List.mem_of_mem_head? hy))

theorem idxInv_atrStep (B : ℚ) (date : ℕ) (direction : ℤ) :
    ∀ (n : ℕ) (s : GenState), IdxInv s → IdxInv (atrStep B date direction n s) := by
  intro n
  induction n with
  | zero => intro s h; exact h
  | succ n ih =>
    intro s h
    rw [atrStep]
    exact ih _ (idxInv_cons_merge s h _ date direction)

theorem idxInv_atr_brick_logic (B : ℚ) (bar : Bar) (s : GenState) (h : IdxInv s) :
    IdxInv (atr_brick_logic B bar s) := by
  simp only [atr_brick_logic]
  split_ifs
  · exact idxInv_atrStep B bar.date 1 _ s h
  · exact idxInv_atrStep B bar.date (-1) _ s h
  · exact h

theorem idxInv_genLoop_atr (B : ℚ) :
    ∀ (bars : List Bar) (s : GenState), IdxInv s →
      IdxInv (genLoop (atr_brick_logic B) bars s) := by
  intro bars
  induction bars with
  | nil => intro s h; exact h
  | cons bar rest ih => intro s h; exact ih _ (idxInv_atr_brick_logic B bar s h)

theorem idxInv_append_incomplete (lastBar : Bar) (s : GenState) (h : IdxInv s) :
    (∀ b ∈ append_incomplete_brick lastBar s, b.index < s.index + 1) ∧
      List.Chain' (fun a b => b.index < a.index) (append_incomplete_brick lastBar s) := by
  obtain ⟨hmem, hchain⟩ := h
  unfold append_incomplete_brick
  cases hrev : s.rev_bricks with
  | nil => simp
  | cons last rest =>
    dsimp only
    split_ifs with hd
    · constructor
      · intro b hb
        rcases List.mem_cons.mp hb with rfl | hb'
        · exact Nat.lt_succ_self s.index
        · exact Nat.lt_succ_of_lt (hmem b (hrev ▸ hb'))
      · refine List.chain'_cons'.mpr ⟨?_, hrev ▸ hchain⟩
        intro y hy
        exact hmem y (hrev ▸ List.mem_of_mem_head? hy)
    · exact ⟨fun b hb => Nat.lt_succ_of_lt (hmem b (hrev ▸ hb)), hrev ▸ hchain⟩

/-- C9: in ATR/fixed-size mode the `index` field is strictly increasing along
the output brick sequence; and (second conjunct, brick size 1, closes
[100, 101, 100]) after a merge-on-retrace removal the removed brick's index
value is skipped — the single output brick carries index 1 at position 0, so
index values are not contiguous. -/
theorem c9_index_strictly_increasing :
    (∀ (b0 : Bar) (rest : List Bar) (B : ℚ), 0 < B →
      List.Chain' (fun a b => a.index < b.index) (atrBricks b0 rest B)) ∧
    (atrBricks ⟨0, 100, 100, 100⟩ [⟨1, 101, 101, 101⟩, ⟨2, 100, 100, 100⟩] 1).map Brick.index =
      [1] := by
  constructor
  · intro b0 rest B _hB
    have h0 : IdxInv ⟨b0.close, 0, []⟩ := ⟨by simp, List.chain'_nil⟩
    have h1 := idxInv_genLoop_atr B rest ⟨b0.close, 0, []⟩ h0
    have h2 := idxInv_append_incomplete (rest.getLastD b0) _ h1
    unfold atrBricks atrCore
    rw [List.chain'_reverse]
    exact h2.2
  · norm_num [atrBricks, atrCore, genLoop, atr_brick_logic, pyInt, atrStep, merge_pop,
      append_incomplete_brick, make_brick]

/-- C9, witness. -/
theorem c9_witness :
    List.Chain' (fun a b => a.index < b.index)
      (atrBricks ⟨0, 100, 100, 100⟩ [⟨1, 106, 106, 106⟩] 2) :=
  c9_index_strictly_increasing.1 ⟨0, 100, 100, 100⟩ [⟨1, 106, 106, 106⟩] 2 (by norm_num)

theorem daily_cp (bar : Bar) (s : GenState) :
    (daily_brick_logic bar s).current_price = bar.close := by
  simp only [daily_brick_logic]
  split_ifs <;> rfl

theorem daily_genLoop_cp :
    ∀ (rest : List Bar) (s : GenState),
      (genLoop daily_brick_logic rest s).current_price =
        (rest.map Bar.close).getLastD s.current_price := by
  intro rest
  induction rest with
  | nil => intro s; rfl
  | cons bar rest ih =>
    intro s
    show (genLoop daily_brick_logic rest (daily_brick_logic bar s)).current_price = _
    rw [ih, daily_cp, List.map_cons, List.getLastD_cons]

theorem daily_no_change (bar : Bar) (s : GenState) (h : bar.close = s.current_price) :
    daily_brick_logic bar s = s := by
  simp only [daily_brick_logic, h]
  simp

theorem daily_trend_inv :
    ∀ (rest : List Bar) (s : GenState),
      (∀ b ∈ s.rev_bricks, b.trend = 1 ∨ b.trend = -1) →
      ∀ b ∈ (genLoop daily_brick_logic rest s).rev_bricks, b.trend = 1 ∨ b.trend = -1 := by
  intro rest
  induction rest with
  | nil => intro s h; exact h
  | cons bar rest ih =>
    intro s h
    apply ih
    simp only [daily_brick_logic]
    split_ifs
    · intro b hb
      rcases List.mem_cons.mp hb with rfl | hb'
      · left; rfl
      · exact h b hb'
    · intro b hb
      rcases List.mem_cons.mp hb with rfl | hb'
      · right; rfl
      · exact h b hb'
    · exact h

/-- C10: in daily mode no trailing partial brick is ever appended — every
brick in the output has trend +1 or −1 — and when the last bar's close
equals the previous close (the close of the bar before it, i.e. the loop's
reference price), that last bar contributes no brick at all: dropping it
leaves the output unchanged. -/
theorem c10_daily_no_partial_brick :
    (∀ (b0 : Bar) (rest : List Bar), ∀ b ∈ dailyBricks b0 rest,
      b.trend = 1 ∨ b.trend = -1) ∧
    (∀ (b0 : Bar) (rest : List Bar) (bn : Bar),
      bn.close = (rest.map Bar.close).getLastD b0.close →
      dailyBricks b0 (rest ++ [bn]) = dailyBricks b0 rest) := by
  constructor
  · intro b0 rest b hb
    exact daily_trend_inv rest ⟨b0.close, 0, []⟩ (by simp) b (List.mem_reverse.mp hb)
  · intro b0 rest bn h
    unfold dailyBricks
    rw [genLoop_append]
    show ((daily_brick_logic bn (genLoop daily_brick_logic rest ⟨b0.close, 0, []⟩)).rev_bricks).reverse = _
    rw [daily_no_change bn _ (by rw [daily_genLoop_cp]; exact h)]

/-- C10, witness. -/
theorem c10_witness :
    ((⟨0, 1, 100, 101, 100, 101, 1⟩ : Brick).trend = 1 ∨
      (⟨0, 1, 100, 101, 100, 101, 1⟩ : Brick).trend = -1) ∧
      dailyBricks ⟨0, 100, 100, 100⟩ ([⟨1, 101, 101, 101⟩] ++ [⟨2, 101, 101, 101⟩]) =
        dailyBricks ⟨0, 100, 100, 100⟩ [⟨1, 101, 101, 101⟩] :=
  ⟨c10_daily_no_partial_brick.1 ⟨0, 100, 100, 100⟩ [⟨1, 101, 101, 101⟩] ⟨0, 1, 100, 101, 100, 101, 1⟩
      (by norm_num [dailyBricks, genLoop, daily_brick_logic, make_brick]),
    c10_daily_no_partial_brick.2 ⟨0, 100, 100, 100⟩ [⟨1, 101, 101, 101⟩] ⟨2, 101, 101, 101⟩ rfl⟩
